import Mathlib

/-!
Verification of the halfmarathon-predictor extraction core.

The definitions below are a shallow embedding of `predictor/llm.py`
(`_time_to_seconds`, `_safe_json_loads`, `_get_openai_client`,
`extract_runner_profile`) and of the display helpers in
`predictor/views.py` (`_format_mmss`).  Python runtime values are
modelled by the inductive type `PyVal`; machine floats are modelled as
exact rationals (the only float operations used by the code — `round`,
`//`, `%`, `float(int)` — are exact on the values involved); `json.loads`
is modelled by an executable recursive-descent parser for the JSON
grammar (the non-standard `NaN`/`Infinity` extensions of the Python
`json` module and surrogate escapes are outside the model; no behaviour
proved here depends on them).  Python's `str.upper` is modelled on the
ASCII range; this is inessential: the code only compares the result
against "M" and "K".
-/

namespace HalfMarathon

/-- Model of a Python runtime value as produced by `json.loads` and
manipulated by `extract_runner_profile`: `none` is Python `None`. -/
inductive PyVal where
  | none : PyVal
  | bool : Bool → PyVal
  | int : ℤ → PyVal
  | float : ℚ → PyVal
  | str : String → PyVal
  | list : List PyVal → PyVal
  | dict : List (String × PyVal) → PyVal

/-- Characters removed by Python's `str.strip()` (ASCII whitespace). -/
def isPySpace (c : Char) : Bool :=
  c == ' ' || c == '\t' || c == '\n' || c == '\r' || c == '\x0b' || c == '\x0c'

/-- `str.strip()` on a character list: drop whitespace from both ends. -/
def pyStripChars (cs : List Char) : List Char :=
  ((cs.dropWhile isPySpace).reverse.dropWhile isPySpace).reverse

/-- `str.strip()`. -/
def pyStrip (s : String) : String :=
  String.mk (pyStripChars s.data)

/-- Decimal rendering of a natural number (the digits of `repr(n)`). -/
def natToChars (n : ℕ) : List Char :=
  if h : n < 10 then [Char.ofNat (48 + n)]
  else natToChars (n / 10) ++ [Char.ofNat (48 + n % 10)]
termination_by n
decreasing_by exact Nat.div_lt_self (by omega) (by omega)

/-- Decimal rendering of a natural number as a string. -/
def natStr (n : ℕ) : String :=
  String.mk (natToChars n)

/-- Numeric value of a list of decimal digit characters. -/
def digitsVal (cs : List Char) : ℕ :=
  cs.foldl (fun a c => a * 10 + (c.toNat - 48)) 0

/-- Tail of a Python integer literal after its first digit: further
digits, with single underscores allowed only between digits. -/
def intDigitsRest : List Char → Bool
  | [] => true
  | c :: cs =>
    if c.isDigit then intDigitsRest cs
    else if c == '_' then
      match cs with
      | d :: cs2 => d.isDigit && intDigitsRest cs2
      | [] => false
    else false

/-- Body of a Python integer literal (after the optional sign):
a digit followed by digits/underscore-digit groups. -/
def intDigitsValid : List Char → Bool
  | [] => false
  | c :: cs => c.isDigit && intDigitsRest cs

/-- Value of a valid integer-literal body: drop underscores, read digits. -/
def intDigitsNat (cs : List Char) : ℕ :=
  digitsVal (cs.filter (fun c => !(c == '_')))

/-- Model of Python `int(s)` on a string `s` (given as characters):
strip whitespace, optional sign, digits with underscores between them.
Returns `Option.none` where Python raises `ValueError`. -/
def pyIntOfChars (cs : List Char) : Option ℤ :=
  let cs := pyStripChars cs
  match cs with
  | [] => Option.none
  | c :: rest =>
    if c == '+' then
      if intDigitsValid rest then Option.some (intDigitsNat rest : ℤ) else Option.none
    else if c == '-' then
      if intDigitsValid rest then Option.some (-(intDigitsNat rest : ℤ)) else Option.none
    else
      if intDigitsValid (c :: rest) then Option.some (intDigitsNat (c :: rest) : ℤ)
      else Option.none

/-- Python `s.split(sep)` for a single-character separator: keeps empty
pieces, so the result is always non-empty. -/
def pySplit (sep : Char) : List Char → List (List Char)
  | [] => [[]]
  | c :: cs =>
    if c == sep then [] :: pySplit sep cs
    else
      match pySplit sep cs with
      | h :: t => (c :: h) :: t
      | [] => [[c]]

/-- Approximate rendering of a Python float for `repr`/`str`.  Python's
shortest-roundtrip float repr is approximated; what matters for the code
under verification is only that the rendering of a non-`str` value is
never parseable by `int()` around a colon, which holds for any rendering
chosen here. -/
def floatRepr (q : ℚ) : String :=
  if q.den = 1 then toString q.num ++ ".0"
  else toString q.num ++ "e" ++ toString q.den

mutual

/-- Python `repr(v)` (strings quoted, used inside containers). -/
def pyReprV : PyVal → String
  | PyVal.none => "None"
  | PyVal.bool true => "True"
  | PyVal.bool false => "False"
  | PyVal.int n => toString n
  | PyVal.float q => floatRepr q
  | PyVal.str s => "'" ++ s ++ "'"
  | PyVal.list xs => "[" ++ pyReprList xs ++ "]"
  | PyVal.dict fs => "\x7b" ++ pyReprFields fs ++ "\x7d"

/-- Comma-separated reprs of list elements. -/
def pyReprList : List PyVal → String
  | [] => ""
  | [x] => pyReprV x
  | x :: xs => pyReprV x ++ ", " ++ pyReprList xs

/-- Comma-separated `key: value` reprs of dict entries. -/
def pyReprFields : List (String × PyVal) → String
  | [] => ""
  | [(k, v)] => "'" ++ k ++ "': " ++ pyReprV v
  | (k, v) :: fs => "'" ++ k ++ "': " ++ pyReprV v ++ ", " ++ pyReprFields fs

end

/-- Python `str(v)`: identity on strings, `repr` otherwise. -/
def pyStr : PyVal → String
  | PyVal.str s => s
  | v => pyReprV v

/-- Truncation of a rational toward zero, as Python `int(float)`. -/
def ratTrunc (q : ℚ) : ℤ :=
  if 0 ≤ q then ⌊q⌋ else -⌊-q⌋

/-- Model of Python `int(v)`: `Option.none` where Python raises. -/
def pyInt : PyVal → Option ℤ
  | PyVal.int n => Option.some n
  | PyVal.float q => Option.some (ratTrunc q)
  | PyVal.bool b => Option.some (if b then 1 else 0)
  | PyVal.str s => pyIntOfChars s.data
  | _ => Option.none

/-- Maximal run of digits (with single embedded underscores) starting
with a digit; returns the digits read (underscores dropped) and the rest. -/
def digitsChunk : List Char → List Char × List Char
  | [] => ([], [])
  | c :: cs =>
    if c.isDigit then
      match cs with
      | '_' :: d :: cs2 =>
        if d.isDigit then
          let p := digitsChunk (d :: cs2)
          (c :: p.1, p.2)
        else (c :: [], '_' :: d :: cs2)
      | rest =>
        let p := digitsChunk rest
        (c :: p.1, p.2)
    else ([], c :: cs)

/-- Model of Python `float(s)` on a string body (sign already removed):
`digits [. digits] [exp]`, `. digits [exp]`, or `digits . [exp]`. -/
def pyFloatBody (cs : List Char) : Option ℚ :=
  let ip := digitsChunk cs
  let afterInt := ip.2
  let fp :=
    match afterInt with
    | '.' :: cs2 => (digitsChunk cs2, true)
    | _ => ((([] : List Char), afterInt), false)
  let fracDigits := fp.1.1
  let afterFrac := fp.1.2
  let hasPoint := fp.2
  if ip.1.isEmpty ∧ (¬hasPoint ∨ fracDigits.isEmpty) then Option.none
  else if ip.1.isEmpty ∧ fracDigits.isEmpty then Option.none
  else
    let mant : ℚ := (digitsVal ip.1 : ℚ) + (digitsVal fracDigits : ℚ) / ((10 : ℚ) ^ fracDigits.length)
    match afterFrac with
    | [] => Option.some mant
    | e :: cs3 =>
      if e == 'e' ∨ e == 'E' then
        let se :=
          match cs3 with
          | '+' :: cs4 => (false, cs4)
          | '-' :: cs4 => (true, cs4)
          | cs4 => (false, cs4)
        let ed := digitsChunk se.2
        if ed.1.isEmpty ∨ ¬ed.2.isEmpty then Option.none
        else if se.1 then Option.some (mant / ((10 : ℚ) ^ digitsVal ed.1))
        else Option.some (mant * ((10 : ℚ) ^ digitsVal ed.1))
      else Option.none

/-- Model of Python `float(s)` on a string: strip, optional sign, finite
decimal literal.  The non-finite literals (`inf`, `nan`) are outside the
model; no behaviour proved here depends on them. -/
def pyFloatOfChars (cs : List Char) : Option ℚ :=
  let cs := pyStripChars cs
  match cs with
  | '+' :: rest => pyFloatBody rest
  | '-' :: rest => (pyFloatBody rest).map (fun q => -q)
  | _ => pyFloatBody cs

/-- Model of Python `float(v)`: `Option.none` where Python raises. -/
def pyFloat : PyVal → Option ℚ
  | PyVal.int n => Option.some (n : ℚ)
  | PyVal.float q => Option.some q
  | PyVal.bool b => Option.some (if b then 1 else 0)
  | PyVal.str s => pyFloatOfChars s.data
  | _ => Option.none

/-- `_time_to_seconds` from `predictor/llm.py` lines 7-29: accepts a
value, returns `None` for `None`, otherwise takes `str(s).strip()`,
splits on `:` and sums `int`-parsed components of a 2- or 3-part split;
every parse failure yields `None` (the `try` swallows exceptions). -/
def time_to_seconds (v : PyVal) : Option ℤ :=
  match v with
  | PyVal.none => Option.none
  | v =>
    let s := pyStripChars (pyStr v).data
    if s.isEmpty then Option.none
    else
      match pySplit ':' s with
      | [m, sec] =>
        match pyIntOfChars m, pyIntOfChars sec with
        | Option.some a, Option.some b => Option.some (a * 60 + b)
        | _, _ => Option.none
      | [h, m, sec] =>
        match pyIntOfChars h, pyIntOfChars m, pyIntOfChars sec with
        | Option.some a, Option.some b, Option.some c =>
          Option.some (a * 3600 + b * 60 + c)
        | _, _, _ => Option.none
      | _ => Option.none

/-- JSON whitespace skipping (space, tab, newline, carriage return). -/
def jsonWs (cs : List Char) : List Char :=
  cs.dropWhile (fun c => c == ' ' || c == '\t' || c == '\n' || c == '\r')

/-- Value of a hexadecimal digit, if any. -/
def hexVal (c : Char) : Option ℕ :=
  if c.isDigit then Option.some (c.toNat - 48)
  else if 'a' ≤ c ∧ c ≤ 'f' then Option.some (c.toNat - 87)
  else if 'A' ≤ c ∧ c ≤ 'F' then Option.some (c.toNat - 55)
  else Option.none

/-- Single-character JSON escapes. -/
def escChar (c : Char) : Option Char :=
  if c == '"' then Option.some '"'
  else if c == '\\' then Option.some '\\'
  else if c == '/' then Option.some '/'
  else if c == 'b' then Option.some '\x08'
  else if c == 'f' then Option.some '\x0c'
  else if c == 'n' then Option.some '\n'
  else if c == 'r' then Option.some '\r'
  else if c == 't' then Option.some '\t'
  else Option.none

/-- Body of a JSON string after the opening quote: returns the decoded
characters and the input after the closing quote.  Unescaped control
characters are rejected (as by `json.loads` in its default strict mode);
`\uXXXX` escapes are decoded for non-surrogate code points. -/
def jString : List Char → Option (List Char × List Char)
  | [] => Option.none
  | '"' :: r => Option.some ([], r)
  | '\\' :: r =>
    match r with
    | [] => Option.none
    | 'u' :: a :: b :: c :: d :: r3 =>
      match hexVal a, hexVal b, hexVal c, hexVal d with
      | Option.some x, Option.some y, Option.some z, Option.some w =>
        let n := ((x * 16 + y) * 16 + z) * 16 + w
        if h : n.isValidChar then
          (jString r3).map (fun p => (Char.ofNatAux n h :: p.1, p.2))
        else Option.none
      | _, _, _, _ => Option.none
    | e :: r2 =>
      match escChar e with
      | Option.some ch => (jString r2).map (fun p => (ch :: p.1, p.2))
      | Option.none => Option.none
  | c :: r =>
    if c.toNat < 32 then Option.none
    else (jString r).map (fun p => (c :: p.1, p.2))

/-- A JSON number starting at the head of the input: optional minus,
integer part without leading zeros, optional fraction and exponent.
Yields `PyVal.int` exactly when neither fraction nor exponent is
present, as `json.loads` does. -/
def jNumber (cs : List Char) : Option (PyVal × List Char) :=
  let sgn :=
    match cs with
    | '-' :: r => (true, r)
    | r => (false, r)
  let neg := sgn.1
  let ip := sgn.2.takeWhile Char.isDigit
  let rest1 := sgn.2.dropWhile Char.isDigit
  if ip.isEmpty then Option.none
  else if ip.length > 1 ∧ ip.headD '0' == '0' then Option.none
  else
    let fr :=
      match rest1 with
      | '.' :: r2 => ((r2.takeWhile Char.isDigit, r2.dropWhile Char.isDigit), true)
      | _ => ((([] : List Char), rest1), false)
    let fd := fr.1.1
    let rest2 := fr.1.2
    let hasFrac := fr.2
    if hasFrac ∧ fd.isEmpty then Option.none
    else
      let ex :=
        match rest2 with
        | 'e' :: r3 => (Option.some r3, rest2)
        | 'E' :: r3 => (Option.some r3, rest2)
        | _ => (Option.none, rest2)
      match ex.1 with
      | Option.none =>
        if hasFrac then
          Option.some (PyVal.float ((if neg then -1 else 1) *
            ((digitsVal ip : ℚ) + (digitsVal fd : ℚ) / (10 : ℚ) ^ fd.length)), rest2)
        else
          Option.some (PyVal.int ((if neg then -1 else 1) * (digitsVal ip : ℤ)), rest2)
      | Option.some r3 =>
        let es :=
          match r3 with
          | '+' :: r4 => (false, r4)
          | '-' :: r4 => (true, r4)
          | r4 => (false, r4)
        let ed := es.1
        let eds := es.2.takeWhile Char.isDigit
        let rest3 := es.2.dropWhile Char.isDigit
        if eds.isEmpty then Option.none
        else
          let mant : ℚ := (digitsVal ip : ℚ) + (digitsVal fd : ℚ) / (10 : ℚ) ^ fd.length
          let scaled : ℚ :=
            if ed then mant / (10 : ℚ) ^ digitsVal eds else mant * (10 : ℚ) ^ digitsVal eds
          Option.some (PyVal.float ((if neg then -1 else 1) * scaled), rest3)

mutual

/-- A JSON value starting at the head of the input (fuel-bounded
recursive descent; the fuel supplied by `json_loads` exceeds any
possible recursion depth for its input). -/
def jValue : ℕ → List Char → Option (PyVal × List Char)
  | 0, _ => Option.none
  | fuel + 1, cs =>
    match cs with
    | [] => Option.none
    | c :: rest =>
      if c == '\x7b' then jObject fuel (jsonWs rest)
      else if c == '[' then jArray fuel (jsonWs rest)
      else if c == '"' then (jString rest).map (fun p => (PyVal.str (String.mk p.1), p.2))
      else
        match cs with
        | 't' :: 'r' :: 'u' :: 'e' :: r => Option.some (PyVal.bool true, r)
        | 'f' :: 'a' :: 'l' :: 's' :: 'e' :: r => Option.some (PyVal.bool false, r)
        | 'n' :: 'u' :: 'l' :: 'l' :: r => Option.some (PyVal.none, r)
        | _ => jNumber cs

/-- Inside of a JSON object after `\x7b` and whitespace. -/
def jObject : ℕ → List Char → Option (PyVal × List Char)
  | 0, _ => Option.none
  | fuel + 1, cs =>
    match cs with
    | '\x7d' :: r => Option.some (PyVal.dict [], r)
    | cs => (jMembers fuel cs).map (fun p => (PyVal.dict p.1, p.2))

/-- One or more `"key": value` members, comma separated, ended by `\x7d`. -/
def jMembers : ℕ → List Char → Option (List (String × PyVal) × List Char)
  | 0, _ => Option.none
  | fuel + 1, cs =>
    match cs with
    | '"' :: r =>
      match jString r with
      | Option.none => Option.none
      | Option.some (key, r2) =>
        match jsonWs r2 with
        | ':' :: r3 =>
          match jValue fuel (jsonWs r3) with
          | Option.none => Option.none
          | Option.some (v, r4) =>
            match jsonWs r4 with
            | ',' :: r5 =>
              (jMembers fuel (jsonWs r5)).map
                (fun p => ((String.mk key, v) :: p.1, p.2))
            | '\x7d' :: r5 => Option.some ([(String.mk key, v)], r5)
            | _ => Option.none
        | _ => Option.none
    | _ => Option.none

/-- Inside of a JSON array after `[` and whitespace. -/
def jArray : ℕ → List Char → Option (PyVal × List Char)
  | 0, _ => Option.none
  | fuel + 1, cs =>
    match cs with
    | ']' :: r => Option.some (PyVal.list [], r)
    | cs => (jItems fuel cs).map (fun p => (PyVal.list p.1, p.2))

/-- One or more array items, comma separated, ended by `]`. -/
def jItems : ℕ → List Char → Option (List PyVal × List Char)
  | 0, _ => Option.none
  | fuel + 1, cs =>
    match jValue fuel cs with
    | Option.none => Option.none
    | Option.some (v, r) =>
      match jsonWs r with
      | ',' :: r2 => (jItems fuel (jsonWs r2)).map (fun p => (v :: p.1, p.2))
      | ']' :: r2 => Option.some ([v], r2)
      | _ => Option.none

end

/-- Model of Python `json.loads`: parse one JSON value surrounded by
whitespace; `Option.none` where `json.loads` raises. -/
def json_loads (s : String) : Option PyVal :=
  let cs := s.data
  match jValue (2 * cs.length + 8) (jsonWs cs) with
  | Option.some (v, rest) => if (jsonWs rest).isEmpty then Option.some v else Option.none
  | Option.none => Option.none

/-- The span matched by `re.search(r"\x7b.*\x7d", text, re.DOTALL)`:
from the first opening brace to the last closing brace after it, if the
latter exists (greedy match at the earliest feasible start). -/
def brace_span (s : String) : Option String :=
  let cs := s.data
  let pre := cs.takeWhile (fun c => !(c == '\x7b'))
  let rest := cs.drop pre.length
  match rest with
  | [] => Option.none
  | b :: tl =>
    let sufLen := (tl.reverse.takeWhile (fun c => !(c == '\x7d'))).length
    if sufLen = tl.length then Option.none
    else Option.some (String.mk (b :: tl.take (tl.length - sufLen)))

/-- `_safe_json_loads` from `predictor/llm.py` lines 32-52: strip, try
`json.loads` on the whole text, then on the first greedy brace-delimited
span; raise `ValueError("Model did not return valid JSON.")` if both
fail. -/
def safe_json_loads (text : String) : Except String PyVal :=
  let text := pyStrip text
  match json_loads text with
  | Option.some v => Except.ok v
  | Option.none =>
    match brace_span text with
    | Option.some sub =>
      match json_loads sub with
      | Option.some v => Except.ok v
      | Option.none => Except.error "Model did not return valid JSON."
    | Option.none => Except.error "Model did not return valid JSON."

/-- Is the value Python `None`? (`v is None`). -/
def isNone : PyVal → Bool
  | PyVal.none => true
  | _ => false

/-- Is the value the empty string? (`v == ""`; equality with a string
is `False` for every non-string value). -/
def isEmptyStr : PyVal → Bool
  | PyVal.str s => s == ""
  | _ => false

/-- Python truthiness (`bool(v)`). -/
def pyTruthy : PyVal → Bool
  | PyVal.none => false
  | PyVal.bool b => b
  | PyVal.int n => !(n == 0)
  | PyVal.float q => !(q == 0)
  | PyVal.str s => !(s == "")
  | PyVal.list xs => !xs.isEmpty
  | PyVal.dict fs => !fs.isEmpty

/-- `data.get(key, None)` on the parsed dict (last binding wins, as in
a Python dict built by `json.loads`). -/
def dictGet (fs : List (String × PyVal)) (k : String) : PyVal :=
  match fs.reverse.find? (fun p => p.1 == k) with
  | Option.some p => p.2
  | Option.none => PyVal.none

/-- ASCII uppercase of one character (`str.upper` restricted to the
ASCII range; the code below only compares the result with "M"/"K"). -/
def pyUpperChar (c : Char) : Char :=
  if 'a' ≤ c ∧ c ≤ 'z' then Char.ofNat (c.toNat - 32) else c

/-- ASCII model of Python `str.upper()`. -/
def pyUpper (s : String) : String :=
  String.mk (s.data.map pyUpperChar)

/-- Sex normalization, `extract_runner_profile` lines 148-152: a string
is stripped and uppercased and kept only if it is exactly "M" or "K"
(anything else becomes `None`); a non-string value passes through
unchanged. -/
def sexNormalize (v : PyVal) : PyVal :=
  match v with
  | PyVal.str s =>
    let u := pyUpper (pyStrip s)
    if u == "M" || u == "K" then PyVal.str u else PyVal.none
  | v => v

/-- Age normalization, lines 154-159: `None` and `""` pass through
unchanged; otherwise `int(age)`, with any exception degrading to `None`. -/
def ageNormalize (v : PyVal) : PyVal :=
  if isNone v || isEmptyStr v then v
  else
    match pyInt v with
    | Option.some n => PyVal.int n
    | Option.none => PyVal.none

/-- t5k normalization, lines 161-165: a string is stripped, and the
empty result becomes `None`; a non-string value passes through. -/
def t5kNormalize (v : PyVal) : PyVal :=
  match v with
  | PyVal.str s =>
    let s := pyStrip s
    if s == "" then PyVal.none else PyVal.str s
  | v => v

/-- t5k_s normalization, lines 167-174: `None` and `""` become `None`;
otherwise `float(t5k_s)`, with any exception degrading to `None`. -/
def t5ksNormalize (v : PyVal) : PyVal :=
  if isNone v || isEmptyStr v then PyVal.none
  else
    match pyFloat v with
    | Option.some q => PyVal.float q
    | Option.none => PyVal.none

/-- The recomputed `missing_clean` list, lines 186-193: appends "sex",
"age", "t5k" in that order, each under its absence condition. -/
def missing_clean (sex age t5k t5k_s : PyVal) : List String :=
  (if isNone sex then ["sex"] else []) ++
  (if isNone age then ["age"] else []) ++
  (if isNone t5k && isNone t5k_s then ["t5k"] else [])

/-- Normalization of a recovered raw object, `extract_runner_profile`
lines 147-201: normalize each field, derive `t5k_s` from `t5k` locally
when absent, recompute `missing` from the normalized values, and return
the five-key result dict.  The raw object's own "missing" entry is read
into a local (lines 176-178) that the return value never uses. -/
def buildProfile (fs : List (String × PyVal)) : PyVal :=
  let sex := sexNormalize (dictGet fs "sex")
  let age := ageNormalize (dictGet fs "age")
  let t5k := t5kNormalize (dictGet fs "t5k")
  let t5k_s0 := t5ksNormalize (dictGet fs "t5k_s")
  let t5k_s :=
    if isNone t5k_s0 && pyTruthy t5k then
      match time_to_seconds t5k with
      | Option.some n => PyVal.float (n : ℚ)
      | Option.none => t5k_s0
    else t5k_s0
  PyVal.dict
    [("sex", sex), ("age", age), ("t5k", t5k), ("t5k_s", t5k_s),
     ("missing", PyVal.list ((missing_clean sex age t5k t5k_s).map PyVal.str))]

/-- One observed behaviour of the external completion call: the request
either raises (transport, auth, quota, malformed response object) or
yields `resp.choices[0].message.content`, a string or `None`. -/
inductive LLMBehaviour where
  | raises : String → LLMBehaviour
  | returns : Option String → LLMBehaviour

/-- The result returned on empty/whitespace-only input text,
`extract_runner_profile` line 96. -/
def emptyTextProfile : PyVal :=
  PyVal.dict
    [("sex", PyVal.none), ("age", PyVal.none), ("t5k", PyVal.none),
     ("t5k_s", PyVal.none), ("missing", PyVal.list [PyVal.str "text"])]

/-- `extract_runner_profile` from `predictor/llm.py` lines 77-201, with
the single external call abstracted by an `LLMBehaviour`.  Blank text
returns the `missing=["text"]` dict at once; an empty key makes
`_get_openai_client` raise `ValueError("Missing OpenAI API key.")`
(line 64) before any call; a raising call propagates; otherwise the
reply content (`or "\x7b\x7d"` for falsy content, line 144) goes through
`_safe_json_loads` — whose `ValueError` propagates — and, when the
recovered value is not a dict, the `.get` calls raise `AttributeError`.
The prompt construction and model-name selection (lines 99-142) do not
affect the result and are not modelled.  `Except.error` marks an
exception reaching the caller. -/
def extract_runner_profile (text : String) (openai_api_key : String)
    (llm : LLMBehaviour) : Except String PyVal :=
  if pyStrip text == "" then Except.ok emptyTextProfile
  else if openai_api_key == "" then Except.error "Missing OpenAI API key."
  else
    match llm with
    | LLMBehaviour.raises msg => Except.error msg
    | LLMBehaviour.returns content =>
      let raw :=
        match content with
        | Option.some c => if c == "" then "\x7b\x7d" else c
        | Option.none => "\x7b\x7d"
      match safe_json_loads raw with
      | Except.error e => Except.error e
      | Except.ok (PyVal.dict fs) => Except.ok (buildProfile fs)
      | Except.ok _ => Except.error "AttributeError: no attribute get"

/-- Rounding of a rational to the nearest integer with ties to even, as
Python `round` on a (finite) float value. -/
def pythonRound (q : ℚ) : ℤ :=
  let f := ⌊q⌋
  let r := q - (f : ℚ)
  if r < 1 / 2 then f
  else if 1 / 2 < r then f + 1
  else if f % 2 = 0 then f else f + 1

/-- Python `f"\x7bn:02d\x7d"`: decimal rendering zero-padded to total
width 2 (sign included in the width). -/
def pad2 (n : ℤ) : String :=
  let sign := if n < 0 then "-" else ""
  let digits := String.mk (natToChars n.natAbs)
  sign ++ String.mk (List.replicate (2 - (sign.length + digits.length)) '0') ++ digits

/-- `_format_mmss` from `predictor/views.py` lines 24-28: round, then
floor-divide/mod by 60 (Python `//` and `%`), then zero-pad both parts. -/
def format_mmss (q : ℚ) : String :=
  let s := pythonRound q
  let mm := Int.fdiv s 60
  let ss := Int.fmod s 60
  pad2 mm ++ ":" ++ pad2 ss

/-! Lemmas about decimal digit strings. -/

/-- A decimal digit character, and the punctuation it is distinct from. -/
def goodDigit (c : Char) : Prop :=
  c.isDigit = true ∧ isPySpace c = false ∧ (c == ':') = false ∧
  (c == '_') = false ∧ (c == '+') = false ∧ (c == '-') = false

theorem goodDigit_ofNat (d : ℕ) (h : d < 10) : goodDigit (Char.ofNat (48 + d)) := by
  interval_cases d <;> exact ⟨rfl, rfl, rfl, rfl, rfl, rfl⟩

theorem toNat_ofNat_digit (d : ℕ) (h : d < 10) :
    (Char.ofNat (48 + d)).toNat - 48 = d := by
  interval_cases d <;> rfl

theorem natToChars_good (n : ℕ) : ∀ c ∈ natToChars n, goodDigit c := by
  induction n using Nat.strong_induction_on with
  | _ n ih =>
    rw [natToChars]
    by_cases h : n < 10
    · simp only [dif_pos h, List.mem_singleton]
      rintro c rfl
      exact goodDigit_ofNat n h
    · simp only [dif_neg h, List.mem_append, List.mem_singleton]
      rintro c (hc | rfl)
      · exact ih (n / 10) (Nat.div_lt_self (by omega) (by omega)) c hc
      · exact goodDigit_ofNat (n % 10) (Nat.mod_lt _ (by omega))

theorem natToChars_ne_nil (n : ℕ) : natToChars n ≠ [] := by
  rw [natToChars]
  by_cases h : n < 10 <;> simp [h]

theorem digitsVal_append_singleton (xs : List Char) (c : Char) :
    digitsVal (xs ++ [c]) = digitsVal xs * 10 + (c.toNat - 48) := by
  simp [digitsVal, List.foldl_append]

theorem digitsVal_natToChars (n : ℕ) : digitsVal (natToChars n) = n := by
  induction n using Nat.strong_induction_on with
  | _ n ih =>
    rw [natToChars]
    by_cases h : n < 10
    · simp only [dif_pos h]
      have h1 : digitsVal [Char.ofNat (48 + n)] = (Char.ofNat (48 + n)).toNat - 48 := by
        simp [digitsVal]
      rw [h1, toNat_ofNat_digit n h]
    · simp only [dif_neg h]
      rw [digitsVal_append_singleton,
        ih (n / 10) (Nat.div_lt_self (by omega) (by omega)),
        toNat_ofNat_digit (n % 10) (Nat.mod_lt _ (by omega))]
      omega

theorem foldl_digits_zero (k : ℕ) :
    List.foldl (fun a c => a * 10 + (c.toNat - 48)) 0 (List.replicate k '0') = 0 := by
  induction k with
  | zero => rfl
  | succ k ih => simpa [List.replicate_succ] using ih

theorem digitsVal_zeros_append (k : ℕ) (ds : List Char) :
    digitsVal (List.replicate k '0' ++ ds) = digitsVal ds := by
  simp [digitsVal, List.foldl_append, foldl_digits_zero]

/-! Lemmas about `pyStripChars`, `intDigitsValid`, `pyIntOfChars`. -/

theorem dropWhile_eq_self_of (p : Char → Bool) (cs : List Char)
    (h : ∀ c ∈ cs, p c = false) : cs.dropWhile p = cs := by
  cases cs with
  | nil => rfl
  | cons c t => simp [List.dropWhile_cons, h c (by simp)]

theorem pyStripChars_eq_self (cs : List Char)
    (h : ∀ c ∈ cs, isPySpace c = false) : pyStripChars cs = cs := by
  unfold pyStripChars
  rw [dropWhile_eq_self_of _ _ h,
    dropWhile_eq_self_of _ _ (fun c hc => h c (by simpa using hc)), List.reverse_reverse]

theorem intDigitsRest_of_digits (cs : List Char)
    (h : ∀ c ∈ cs, c.isDigit = true) : intDigitsRest cs = true := by
  induction cs with
  | nil => rfl
  | cons c t ih =>
    have hc : c.isDigit = true := h c (by simp)
    unfold intDigitsRest
    rw [hc]
    simp only [if_true]
    exact ih (fun c hc => h c (by simp [hc]))

theorem intDigitsValid_of_digits (cs : List Char) (hne : cs ≠ [])
    (h : ∀ c ∈ cs, c.isDigit = true) : intDigitsValid cs = true := by
  cases cs with
  | nil => exact absurd rfl hne
  | cons c t =>
    simp only [intDigitsValid, Bool.and_eq_true]
    exact ⟨h c (by simp), intDigitsRest_of_digits t (fun c hc => h c (by simp [hc]))⟩

theorem intDigitsNat_of_no_underscore (cs : List Char)
    (h : ∀ c ∈ cs, (c == '_') = false) : intDigitsNat cs = digitsVal cs := by
  unfold intDigitsNat
  rw [List.filter_eq_self.mpr (fun c hc => by simp [h c hc])]

theorem pyIntOfChars_digits (cs : List Char) (hne : cs ≠ [])
    (h : ∀ c ∈ cs, goodDigit c) :
    pyIntOfChars cs = Option.some (digitsVal cs : ℤ) := by
  unfold pyIntOfChars
  rw [pyStripChars_eq_self cs (fun c hc => (h c hc).2.1)]
  cases cs with
  | nil => exact absurd rfl hne
  | cons c t =>
    have hc := h c (by simp)
    simp only [hc.2.2.2.2.1, hc.2.2.2.2.2, Bool.false_eq_true, if_false]
    rw [if_pos (intDigitsValid_of_digits _ (by simp) (fun x hx => (h x hx).1)),
      intDigitsNat_of_no_underscore _ (fun x hx => (h x hx).2.2.2.1)]

/-! Lemmas about `pySplit`. -/

theorem pySplit_of_no_sep (sep : Char) (cs : List Char)
    (h : ∀ c ∈ cs, (c == sep) = false) : pySplit sep cs = [cs] := by
  induction cs with
  | nil => rfl
  | cons c t ih =>
    simp only [pySplit, h c (by simp), Bool.false_eq_true, if_false]
    rw [ih (fun x hx => h x (by simp [hx]))]

theorem pySplit_append (sep : Char) (a b : List Char)
    (h : ∀ c ∈ a, (c == sep) = false) :
    pySplit sep (a ++ sep :: b) = a :: pySplit sep b := by
  induction a with
  | nil => simp [pySplit]
  | cons c t ih =>
    simp only [List.cons_append, pySplit, h c (by simp), Bool.false_eq_true, if_false,
      List.append_eq]
    rw [ih (fun x hx => h x (by simp [hx]))]

/-! Lemmas about `time_to_seconds` on digit strings. -/

theorem mk_append_mk (a b : List Char) :
    String.mk a ++ String.mk b = String.mk (a ++ b) := rfl

theorem tts_pair (a b : List Char) (hna : a ≠ []) (hnb : b ≠ [])
    (ha : ∀ c ∈ a, goodDigit c) (hb : ∀ c ∈ b, goodDigit c) :
    time_to_seconds (PyVal.str (String.mk (a ++ ':' :: b))) =
      Option.some ((digitsVal a : ℤ) * 60 + (digitsVal b : ℤ)) := by
  have hcolon : isPySpace ':' = false := rfl
  have hns : ∀ c ∈ a ++ ':' :: b, isPySpace c = false := by
    intro c hc
    rcases List.mem_append.mp hc with h1 | h1
    · exact (ha c h1).2.1
    · rcases List.mem_cons.mp h1 with rfl | h2
      · exact hcolon
      · exact (hb c h2).2.1
  simp only [time_to_seconds, pyStr]
  rw [pyStripChars_eq_self _ hns]
  rw [show (a ++ ':' :: b).isEmpty = false from by cases a <;> rfl]
  simp only [Bool.false_eq_true, if_false]
  rw [pySplit_append ':' a b (fun c hc => (ha c hc).2.2.1),
    pySplit_of_no_sep ':' b (fun c hc => (hb c hc).2.2.1)]
  change (match pyIntOfChars a, pyIntOfChars b with
    | Option.some x, Option.some y => Option.some (x * 60 + y)
    | _, _ => Option.none) = _
  rw [pyIntOfChars_digits a hna ha, pyIntOfChars_digits b hnb hb]

theorem tts_triple (a b c : List Char) (hna : a ≠ []) (hnb : b ≠ []) (hnc : c ≠ [])
    (ha : ∀ x ∈ a, goodDigit x) (hb : ∀ x ∈ b, goodDigit x) (hc : ∀ x ∈ c, goodDigit x) :
    time_to_seconds (PyVal.str (String.mk (a ++ ':' :: (b ++ ':' :: c)))) =
      Option.some ((digitsVal a : ℤ) * 3600 + (digitsVal b : ℤ) * 60 + (digitsVal c : ℤ)) := by
  have hcolon : isPySpace ':' = false := rfl
  have hns : ∀ x ∈ a ++ ':' :: (b ++ ':' :: c), isPySpace x = false := by
    intro x hx
    rcases List.mem_append.mp hx with h1 | h1
    · exact (ha x h1).2.1
    rcases List.mem_cons.mp h1 with rfl | h2
    · exact hcolon
    rcases List.mem_append.mp h2 with h3 | h3
    · exact (hb x h3).2.1
    rcases List.mem_cons.mp h3 with rfl | h4
    · exact hcolon
    · exact (hc x h4).2.1
  simp only [time_to_seconds, pyStr]
  rw [pyStripChars_eq_self _ hns]
  rw [show (a ++ ':' :: (b ++ ':' :: c)).isEmpty = false from by cases a <;> rfl]
  simp only [Bool.false_eq_true, if_false]
  rw [pySplit_append ':' a (b ++ ':' :: c) (fun x hx => (ha x hx).2.2.1),
    pySplit_append ':' b c (fun x hx => (hb x hx).2.2.1),
    pySplit_of_no_sep ':' c (fun x hx => (hc x hx).2.2.1)]
  change (match pyIntOfChars a, pyIntOfChars b, pyIntOfChars c with
    | Option.some x, Option.some y, Option.some z =>
      Option.some (x * 3600 + y * 60 + z)
    | _, _, _ => Option.none) = _
  rw [pyIntOfChars_digits a hna ha, pyIntOfChars_digits b hnb hb,
    pyIntOfChars_digits c hnc hc]

/-! Lemmas about `pad2`, `pythonRound` and `format_mmss`. -/

theorem pad2_nonneg (n : ℤ) (h : 0 ≤ n) :
    pad2 n = String.mk
      (List.replicate (2 - (natToChars n.natAbs).length) '0' ++ natToChars n.natAbs) := by
  simp only [pad2]
  rw [if_neg (not_lt.mpr h)]
  have hlen : ("" : String).length + (String.mk (natToChars n.natAbs)).length =
      (natToChars n.natAbs).length := by
    show ([] : List Char).length + (natToChars n.natAbs).length = (natToChars n.natAbs).length
    rw [List.length_nil, Nat.zero_add]
  rw [hlen]
  rfl

theorem pad2_content (n : ℤ) :
    (List.replicate (2 - (natToChars n.natAbs).length) '0' ++ natToChars n.natAbs) ≠ [] ∧
    (∀ c ∈ List.replicate (2 - (natToChars n.natAbs).length) '0' ++ natToChars n.natAbs,
      goodDigit c) ∧
    digitsVal (List.replicate (2 - (natToChars n.natAbs).length) '0' ++ natToChars n.natAbs)
      = n.natAbs := by
  refine ⟨by simp [natToChars_ne_nil], ?_, ?_⟩
  · intro c hc
    rcases List.mem_append.mp hc with h1 | h1
    · rw [List.eq_of_mem_replicate h1]
      exact goodDigit_ofNat 0 (by omega)
    · exact natToChars_good _ c h1
  · rw [digitsVal_zeros_append, digitsVal_natToChars]

theorem pythonRound_nonneg (q : ℚ) (h : 0 ≤ q) : 0 ≤ pythonRound q := by
  have hf : (0 : ℤ) ≤ ⌊q⌋ := Int.floor_nonneg.mpr h
  simp only [pythonRound]
  split_ifs <;> omega

theorem pythonRound_natCast (n : ℕ) : pythonRound (n : ℚ) = n := by
  simp only [pythonRound, Int.floor_natCast]
  norm_num

theorem format_mmss_of_nonneg (q : ℚ) (h : 0 ≤ q) :
    format_mmss q = String.mk
      ((List.replicate (2 - (natToChars ((pythonRound q).fdiv 60).natAbs).length) '0' ++
          natToChars ((pythonRound q).fdiv 60).natAbs) ++ ':' ::
        (List.replicate (2 - (natToChars ((pythonRound q).fmod 60).natAbs).length) '0' ++
          natToChars ((pythonRound q).fmod 60).natAbs)) := by
  have hs0 : 0 ≤ pythonRound q := pythonRound_nonneg q h
  have hmm0 : 0 ≤ (pythonRound q).fdiv 60 := Int.fdiv_nonneg hs0 (by norm_num)
  have hss0 : 0 ≤ (pythonRound q).fmod 60 := Int.fmod_nonneg hs0 (by norm_num)
  simp only [format_mmss]
  rw [pad2_nonneg _ hmm0, pad2_nonneg _ hss0,
    show (":" : String) = String.mk [':'] from rfl, mk_append_mk, mk_append_mk]
  congr 1
  simp

theorem format_mmss_roundtrip (q : ℚ) (h : 0 ≤ q) :
    time_to_seconds (PyVal.str (format_mmss q)) = Option.some (pythonRound q) := by
  have hs0 : 0 ≤ pythonRound q := pythonRound_nonneg q h
  have hmm0 : 0 ≤ (pythonRound q).fdiv 60 := Int.fdiv_nonneg hs0 (by norm_num)
  have hss0 : 0 ≤ (pythonRound q).fmod 60 := Int.fmod_nonneg hs0 (by norm_num)
  obtain ⟨hAne, hAgood, hAval⟩ := pad2_content ((pythonRound q).fdiv 60)
  obtain ⟨hBne, hBgood, hBval⟩ := pad2_content ((pythonRound q).fmod 60)
  rw [format_mmss_of_nonneg q h, tts_pair _ _ hAne hBne hAgood hBgood, hAval, hBval,
    Int.natAbs_of_nonneg hmm0, Int.natAbs_of_nonneg hss0]
  have hdm := Int.fdiv_add_fmod (pythonRound q) 60
  simp only [Option.some.injEq]
  omega

theorem fdiv_natCast_sixty (m s : ℕ) (hs : s < 60) :
    ((m * 60 + s : ℕ) : ℤ).fdiv 60 = (m : ℤ) := by
  have h1 := Int.ofNat_fdiv (m * 60 + s) 60
  have hdiv : (m * 60 + s) / 60 = m := by omega
  rw [hdiv] at h1
  exact_mod_cast h1.symm

theorem fmod_natCast_sixty (m s : ℕ) (hs : s < 60) :
    ((m * 60 + s : ℕ) : ℤ).fmod 60 = (s : ℤ) := by
  have h1 := Int.ofNat_fmod (m * 60 + s) 60
  have hmod : (m * 60 + s) % 60 = s := by omega
  rw [hmod] at h1
  exact_mod_cast h1.symm

theorem format_mmss_natCast (m s : ℕ) (hs : s < 60) :
    format_mmss (((m * 60 + s : ℕ) : ℚ)) = pad2 (m : ℤ) ++ ":" ++ pad2 (s : ℤ) := by
  simp only [format_mmss]
  rw [pythonRound_natCast, fdiv_natCast_sixty m s hs, fmod_natCast_sixty m s hs]

theorem tts_pad2_pair (m s : ℕ) :
    time_to_seconds (PyVal.str (pad2 (m : ℤ) ++ ":" ++ pad2 (s : ℤ))) =
      Option.some ((m : ℤ) * 60 + (s : ℤ)) := by
  obtain ⟨hAne, hAgood, hAval⟩ := pad2_content (m : ℤ)
  obtain ⟨hBne, hBgood, hBval⟩ := pad2_content (s : ℤ)
  rw [pad2_nonneg _ (by positivity), pad2_nonneg _ (by positivity),
    show (":" : String) = String.mk [':'] from rfl, mk_append_mk, mk_append_mk,
    show ∀ x y : List Char, (x ++ [':']) ++ y = x ++ ':' :: y from by intro x y; simp]
  rw [tts_pair _ _ hAne hBne hAgood hBgood, hAval, hBval]
  simp

theorem tts_natStr_pair (m s : ℕ) :
    time_to_seconds (PyVal.str (natStr m ++ ":" ++ natStr s)) =
      Option.some ((m : ℤ) * 60 + (s : ℤ)) := by
  rw [natStr, natStr, show (":" : String) = String.mk [':'] from rfl,
    mk_append_mk, mk_append_mk,
    show (natToChars m ++ [':']) ++ natToChars s = natToChars m ++ ':' :: natToChars s
      from by simp]
  rw [tts_pair _ _ (natToChars_ne_nil m) (natToChars_ne_nil s)
    (natToChars_good m) (natToChars_good s), digitsVal_natToChars, digitsVal_natToChars]

theorem tts_natStr_triple (h m s : ℕ) :
    time_to_seconds (PyVal.str (natStr h ++ ":" ++ natStr m ++ ":" ++ natStr s)) =
      Option.some ((h : ℤ) * 3600 + (m : ℤ) * 60 + (s : ℤ)) := by
  rw [natStr, natStr, natStr, show (":" : String) = String.mk [':'] from rfl,
    mk_append_mk, mk_append_mk, mk_append_mk, mk_append_mk,
    show (((natToChars h ++ [':']) ++ natToChars m) ++ [':']) ++ natToChars s =
        natToChars h ++ ':' :: (natToChars m ++ ':' :: natToChars s) from by simp]
  rw [tts_triple _ _ _ (natToChars_ne_nil h) (natToChars_ne_nil m) (natToChars_ne_nil s)
    (natToChars_good h) (natToChars_good m) (natToChars_good s),
    digitsVal_natToChars, digitsVal_natToChars, digitsVal_natToChars]

/-! Lemmas about the normalizers and `extract_runner_profile`. -/

theorem sexNormalize_str_range (v : PyVal) (s : String)
    (h : sexNormalize v = PyVal.str s) : s = "M" ∨ s = "K" := by
  cases v with
  | str s0 =>
    simp only [sexNormalize] at h
    by_cases hu : ((pyUpper (pyStrip s0) == "M") || (pyUpper (pyStrip s0) == "K")) = true
    · rw [if_pos hu] at h
      cases h
      rcases Bool.or_eq_true_iff.mp hu with h1 | h1
      · exact Or.inl (eq_of_beq h1)
      · exact Or.inr (eq_of_beq h1)
    · rw [if_neg hu] at h
      cases h
  | none => cases h
  | bool b => cases h
  | int n => cases h
  | float q => cases h
  | list xs => cases h
  | dict fs => cases h

theorem missing_clean_sublist (a b c d : PyVal) :
    List.Sublist (missing_clean a b c d) ["sex", "age", "t5k"] := by
  unfold missing_clean
  cases isNone a <;> cases isNone b <;> cases isNone c <;> cases isNone d <;> simp

theorem mem_missing_clean (a b c d : PyVal) :
    ("sex" ∈ missing_clean a b c d ↔ isNone a = true) ∧
    ("age" ∈ missing_clean a b c d ↔ isNone b = true) ∧
    ("t5k" ∈ missing_clean a b c d ↔ (isNone c = true ∧ isNone d = true)) := by
  unfold missing_clean
  cases isNone a <;> cases isNone b <;> cases isNone c <;> cases isNone d <;> simp

theorem dictGet_append_ne (fs : List (String × PyVal)) (k0 k : String) (v : PyVal)
    (h : (k0 == k) = false) : dictGet (fs ++ [(k0, v)]) k = dictGet fs k := by
  unfold dictGet
  rw [List.reverse_append]
  simp only [List.reverse_cons, List.reverse_nil, List.nil_append, List.singleton_append,
    List.find?]
  rw [h]
  rfl

theorem extract_blank (text key : String) (b : LLMBehaviour)
    (h : pyStrip text = "") :
    extract_runner_profile text key b = Except.ok emptyTextProfile := by
  unfold extract_runner_profile
  rw [if_pos (by simp [h])]

theorem extract_empty_key (text : String) (b : LLMBehaviour)
    (h : pyStrip text ≠ "") :
    extract_runner_profile text "" b = Except.error "Missing OpenAI API key." := by
  unfold extract_runner_profile
  rw [if_neg (by simp [h]), if_pos (show (("" == "") = true) from rfl)]

theorem extract_raises (text key msg : String)
    (ht : pyStrip text ≠ "") (hk : key ≠ "") :
    extract_runner_profile text key (LLMBehaviour.raises msg) = Except.error msg := by
  unfold extract_runner_profile
  rw [if_neg (by simp [ht]), if_neg (by simp [hk])]

theorem extract_returns (text key : String) (c : Option String)
    (ht : pyStrip text ≠ "") (hk : key ≠ "") :
    extract_runner_profile text key (LLMBehaviour.returns c) =
      (match safe_json_loads
          (match c with
           | Option.some s => if s == "" then "\x7b\x7d" else s
           | Option.none => "\x7b\x7d") with
       | Except.error e => Except.error e
       | Except.ok (PyVal.dict fs) => Except.ok (buildProfile fs)
       | Except.ok _ => Except.error "AttributeError: no attribute get") := by
  unfold extract_runner_profile
  rw [if_neg (by simp [ht]), if_neg (by simp [hk])]

/-! Claim theorems. -/

/-- C1 counterexample: the claim says no exception ever crosses
`extract_runner_profile`; in fact a raising external call propagates to
the caller at the concrete input (text "hello", key "k"). -/
theorem extract_transport_error_escapes :
    extract_runner_profile "hello" "k" (LLMBehaviour.raises "boom") =
      Except.error "boom" := rfl

/-- C1 (amended): failures are not converted to the all-absent profile:
a raising external call propagates its exception, a reply from which no
JSON object can be recovered raises `ValueError("Model did not return
valid JSON.")`, and an empty key raises `ValueError("Missing OpenAI API
key.")`; none of these paths returns a profile. -/
theorem extract_failures_propagate (text key msg : String)
    (ht : pyStrip text ≠ "") (hk : key ≠ "") :
    extract_runner_profile text key (LLMBehaviour.raises msg) = Except.error msg ∧
    extract_runner_profile text key
        (LLMBehaviour.returns (Option.some "no object here")) =
      Except.error "Model did not return valid JSON." ∧
    extract_runner_profile text "" (LLMBehaviour.raises msg) =
      Except.error "Missing OpenAI API key." := by
  refine ⟨extract_raises text key msg ht hk, ?_, extract_empty_key text _ ht⟩
  rw [extract_returns text key _ ht hk]
  rfl

/-- C1 witness: the amended theorem applied at text "hi", key "k". -/
theorem extract_failures_propagate_witness :
    extract_runner_profile "hi" "k" (LLMBehaviour.raises "boom") =
      Except.error "boom" :=
  (extract_failures_propagate "hi" "k" "boom" (by decide) (by decide)).1

/-- C2 counterexample: on empty text the returned `missing` list is
`["text"]`, not `["sex", "age", "t5k"]` as the claim states. -/
theorem empty_text_missing_not_triple :
    extract_runner_profile "" "key" (LLMBehaviour.raises "boom") ≠
      Except.ok (PyVal.dict
        [("sex", PyVal.none), ("age", PyVal.none), ("t5k", PyVal.none),
         ("t5k_s", PyVal.none),
         ("missing", PyVal.list [PyVal.str "sex", PyVal.str "age", PyVal.str "t5k"])]) := by
  intro h
  have h0 : (Except.ok emptyTextProfile : Except String PyVal) =
      Except.ok (PyVal.dict
        [("sex", PyVal.none), ("age", PyVal.none), ("t5k", PyVal.none),
         ("t5k_s", PyVal.none),
         ("missing", PyVal.list [PyVal.str "sex", PyVal.str "age", PyVal.str "t5k"])]) := h
  simp [emptyTextProfile] at h0

/-- C2 (amended): for every empty or whitespace-only input text, and
every key and external behaviour, extract returns immediately (making no
external call: the result does not depend on the behaviour) the profile
with sex/age/t5k/t5k_s all `None` and `missing = ["text"]`. -/
theorem extract_blank_text (text key : String) (b : LLMBehaviour)
    (h : pyStrip text = "") :
    extract_runner_profile text key b =
      Except.ok (PyVal.dict
        [("sex", PyVal.none), ("age", PyVal.none), ("t5k", PyVal.none),
         ("t5k_s", PyVal.none), ("missing", PyVal.list [PyVal.str "text"])]) :=
  extract_blank text key b h

/-- C2 witness: the amended theorem applied at the empty text. -/
theorem extract_blank_text_witness :
    extract_runner_profile "" "key" (LLMBehaviour.raises "boom") =
      Except.ok (PyVal.dict
        [("sex", PyVal.none), ("age", PyVal.none), ("t5k", PyVal.none),
         ("t5k_s", PyVal.none), ("missing", PyVal.list [PyVal.str "text"])]) :=
  extract_blank_text "" "key" (LLMBehaviour.raises "boom") rfl

/-- C3: for every recovered raw object, the returned `missing` list is
recomputed from the normalized values alone — it contains "sex" iff the
normalized sex is absent, "age" iff the normalized age is absent, and
"t5k" iff both the seconds value and the display string are absent — and
any "missing" entry of the raw object is ignored. -/
theorem missing_recomputed_from_normalized (fs : List (String × PyVal)) :
    (∃ sex age t5k t5ks miss,
      buildProfile fs = PyVal.dict
        [("sex", sex), ("age", age), ("t5k", t5k), ("t5k_s", t5ks),
         ("missing", PyVal.list (List.map PyVal.str miss))] ∧
      ("sex" ∈ miss ↔ isNone sex = true) ∧
      ("age" ∈ miss ↔ isNone age = true) ∧
      ("t5k" ∈ miss ↔ (isNone t5k = true ∧ isNone t5ks = true))) ∧
    ∀ v, buildProfile (fs ++ [("missing", v)]) = buildProfile fs := by
  constructor
  · refine ⟨_, _, _, _, _, rfl, ?_, ?_, ?_⟩
    · exact (mem_missing_clean _ _ _ _).1
    · exact (mem_missing_clean _ _ _ _).2.1
    · exact (mem_missing_clean _ _ _ _).2.2
  · intro v
    simp only [buildProfile]
    rw [dictGet_append_ne fs "missing" "sex" v rfl,
      dictGet_append_ne fs "missing" "age" v rfl,
      dictGet_append_ne fs "missing" "t5k" v rfl,
      dictGet_append_ne fs "missing" "t5k_s" v rfl]

/-- C4 counterexample: with an empty key the claim says extract returns
the all-absent profile; in fact it raises `ValueError("Missing OpenAI
API key.")` at the concrete input (text "hello"). -/
theorem extract_empty_key_not_profile :
    extract_runner_profile "hello" "" (LLMBehaviour.raises "boom") =
      Except.error "Missing OpenAI API key." ∧
    ∀ p : PyVal, extract_runner_profile "hello" "" (LLMBehaviour.raises "boom") ≠
      Except.ok p := by
  refine ⟨rfl, fun p h => ?_⟩
  have h0 : (Except.error "Missing OpenAI API key." : Except String PyVal) =
      Except.ok p := h
  cases h0

/-- C4 (amended): with an empty key and non-blank text, extract raises
`ValueError("Missing OpenAI API key.")` instead of returning a profile,
and makes no external call (the result is the same for every behaviour
of the external service). -/
theorem extract_empty_key_fail_closed (text : String) (b b2 : LLMBehaviour)
    (ht : pyStrip text ≠ "") :
    extract_runner_profile text "" b = Except.error "Missing OpenAI API key." ∧
    extract_runner_profile text "" b = extract_runner_profile text "" b2 := by
  rw [extract_empty_key text b ht, extract_empty_key text b2 ht]
  exact ⟨rfl, rfl⟩

/-- C4 witness: the amended theorem applied at text "hi". -/
theorem extract_empty_key_fail_closed_witness :
    extract_runner_profile "hi" "" (LLMBehaviour.raises "x") =
      Except.error "Missing OpenAI API key." :=
  (extract_empty_key_fail_closed "hi" (LLMBehaviour.raises "x")
    (LLMBehaviour.returns Option.none) (by decide)).1

/-- C5 counterexample: the claim says the raw value "mężczyzna"
normalizes to MALE; in fact the sex normalizer maps it to `None`
(UNKNOWN). -/
theorem sex_mezczyzna_not_male :
    sexNormalize (PyVal.str "mężczyzna") = PyVal.none ∧
    PyVal.none ≠ PyVal.str "M" :=
  ⟨rfl, fun h => nomatch h⟩

/-- C5 (amended): the sex normalizer recognizes only the bare letter
codes: a string whose stripped uppercase form is exactly "M" or "K"
maps to that code, and every other string — including full English or
Polish words and punctuated forms — maps to UNKNOWN; `None` stays
UNKNOWN. -/
theorem sex_normalizer_letter_codes_only :
    (∀ s : String, sexNormalize (PyVal.str s) = PyVal.none ∨
      sexNormalize (PyVal.str s) = PyVal.str "M" ∨
      sexNormalize (PyVal.str s) = PyVal.str "K") ∧
    sexNormalize (PyVal.str " m ") = PyVal.str "M" ∧
    sexNormalize (PyVal.str "k") = PyVal.str "K" ∧
    sexNormalize (PyVal.str "male") = PyVal.none ∧
    sexNormalize (PyVal.str "kobieta") = PyVal.none ∧
    sexNormalize (PyVal.str "M.") = PyVal.none ∧
    sexNormalize PyVal.none = PyVal.none := by
  refine ⟨?_, rfl, rfl, rfl, rfl, rfl, rfl⟩
  intro s
  simp only [sexNormalize]
  by_cases hu : ((pyUpper (pyStrip s) == "M") || (pyUpper (pyStrip s) == "K")) = true
  · rw [if_pos hu]
    rcases Bool.or_eq_true_iff.mp hu with h1 | h1
    · right; left; rw [eq_of_beq h1]
    · right; right; rw [eq_of_beq h1]
  · rw [if_neg hu]
    left
    rfl

/-- C6 counterexample: the claim says "25 min" decodes to 1500 and that
a two-digit seconds component outside 00-59 is rejected; in fact the
colloquial form yields `None` and "10:99" decodes to 699. -/
theorem tts_claimed_forms_fail :
    time_to_seconds (PyVal.str "25 min") = Option.none ∧
    time_to_seconds (PyVal.str "10:99") = Option.some 699 :=
  ⟨rfl, rfl⟩

/-- C6 (amended): `_time_to_seconds` accepts exactly the colon forms
whose components parse as Python integers — `MM:SS` (components
unbounded, optionally signed or space-padded) gives minutes×60+seconds,
`HH:MM:SS` the weighted sum — recognizes no colloquial "N min" form,
and returns `None` (never an error) on everything else. -/
theorem tts_amended :
    (∀ m s : ℕ, time_to_seconds (PyVal.str (natStr m ++ ":" ++ natStr s)) =
        Option.some ((m : ℤ) * 60 + (s : ℤ))) ∧
    (∀ h m s : ℕ,
      time_to_seconds (PyVal.str (natStr h ++ ":" ++ natStr m ++ ":" ++ natStr s)) =
        Option.some ((h : ℤ) * 3600 + (m : ℤ) * 60 + (s : ℤ))) ∧
    time_to_seconds (PyVal.str "25 min") = Option.none ∧
    time_to_seconds (PyVal.str "25 minut") = Option.none ∧
    time_to_seconds (PyVal.str "25 minutes") = Option.none ∧
    time_to_seconds (PyVal.str "7:70") = Option.some 490 ∧
    time_to_seconds (PyVal.str "-5:30") = Option.some (-270) ∧
    time_to_seconds (PyVal.str " 12 : 34 ") = Option.some 754 ∧
    time_to_seconds (PyVal.str "nope") = Option.none ∧
    time_to_seconds (PyVal.str "") = Option.none ∧
    time_to_seconds PyVal.none = Option.none :=
  ⟨tts_natStr_pair, tts_natStr_triple, rfl, rfl, rfl, rfl, rfl, rfl, rfl, rfl, rfl⟩

/-- C7: JSON recovery tries the full trimmed text first, then the first
greedy brace-delimited span, and fails exactly when both attempts fail;
on the wrapped-object example it recovers the embedded object, and on
"no object here" it raises. -/
theorem safe_json_loads_spec :
    safe_json_loads "blah blah \x7b\"sex\":\"M\",\"age\":40,\"t5k\":\"25:00\"\x7d  -- done" =
      Except.ok (PyVal.dict
        [("sex", PyVal.str "M"), ("age", PyVal.int 40), ("t5k", PyVal.str "25:00")]) ∧
    safe_json_loads "no object here" =
      Except.error "Model did not return valid JSON." ∧
    (∀ text v, json_loads (pyStrip text) = Option.some v →
      safe_json_loads text = Except.ok v) ∧
    ∀ text, (∃ e, safe_json_loads text = Except.error e) ↔
      (json_loads (pyStrip text) = Option.none ∧
       ∀ sub, brace_span (pyStrip text) = Option.some sub →
         json_loads sub = Option.none) := by
  refine ⟨rfl, rfl, ?_, ?_⟩
  · intro text v h
    simp only [safe_json_loads]
    rw [h]
  · intro text
    constructor
    · rintro ⟨e, he⟩
      rcases h1 : json_loads (pyStrip text) with _ | v
      · rcases h2 : brace_span (pyStrip text) with _ | sub
        · exact ⟨rfl, fun sub2 hs2 => nomatch hs2⟩
        · rcases h3 : json_loads sub with _ | v2
          · exact ⟨rfl, fun sub2 hs2 => by cases hs2; exact h3⟩
          · have hv : safe_json_loads text = Except.ok v2 := by
              simp only [safe_json_loads]
              rw [h1]
              show (match brace_span (pyStrip text) with
                | Option.some sub =>
                  match json_loads sub with
                  | Option.some v => Except.ok v
                  | Option.none => Except.error "Model did not return valid JSON."
                | Option.none => Except.error "Model did not return valid JSON.") =
                Except.ok v2
              rw [h2]
              show (match json_loads sub with
                | Option.some v => Except.ok v
                | Option.none => Except.error "Model did not return valid JSON.") =
                Except.ok v2
              rw [h3]
            rw [hv] at he
            cases he
      · have hv : safe_json_loads text = Except.ok v := by
          simp only [safe_json_loads]
          rw [h1]
        rw [hv] at he
        cases he
    · rintro ⟨h1, h2⟩
      simp only [safe_json_loads]
      rw [h1]
      rcases hb : brace_span (pyStrip text) with _ | sub
      · exact ⟨_, rfl⟩
      · refine ⟨"Model did not return valid JSON.", ?_⟩
        show (match json_loads sub with
          | Option.some v => Except.ok v
          | Option.none => Except.error "Model did not return valid JSON.") =
          Except.error "Model did not return valid JSON."
        rw [h2 sub hb]

/-- C7 witness: the order clause applied at a directly-parseable text. -/
theorem safe_json_loads_spec_witness :
    safe_json_loads "\x7b\x7d" = Except.ok (PyVal.dict []) :=
  safe_json_loads_spec.2.2.1 "\x7b\x7d" (PyVal.dict []) rfl

/-- C8: round-trip laws of the time codec: for every seconds value
`s ≥ 0`, decoding the rendered `MM:SS` display recovers `round(s)`
(Python banker's rounding), and for every canonical zero-padded `MM:SS`
with minutes 1-99 and seconds 00-59 the decode-then-encode round trip
reproduces the same string. -/
theorem time_codec_roundtrip :
    (∀ q : ℚ, 0 ≤ q →
      time_to_seconds (PyVal.str (format_mmss q)) = Option.some (pythonRound q)) ∧
    (∀ m s : ℕ, 1 ≤ m → m ≤ 99 → s ≤ 59 →
      time_to_seconds (PyVal.str (pad2 (m : ℤ) ++ ":" ++ pad2 (s : ℤ))) =
        Option.some ((m : ℤ) * 60 + (s : ℤ)) ∧
      format_mmss (((m * 60 + s : ℕ) : ℚ)) = pad2 (m : ℤ) ++ ":" ++ pad2 (s : ℤ)) := by
  refine ⟨format_mmss_roundtrip, ?_⟩
  intro m s hm1 hm2 hs
  exact ⟨tts_pad2_pair m s, format_mmss_natCast m s (by omega)⟩

/-- C8 witness: the round-trip laws applied at 5/2 seconds and at
25:00. -/
theorem time_codec_roundtrip_witness :
    (0 : ℚ) ≤ 5 / 2 ∧
    time_to_seconds (PyVal.str (format_mmss (5 / 2))) =
      Option.some (pythonRound (5 / 2)) ∧
    time_to_seconds (PyVal.str (pad2 ((25 : ℕ) : ℤ) ++ ":" ++ pad2 ((0 : ℕ) : ℤ))) =
      Option.some (((25 : ℕ) : ℤ) * 60 + ((0 : ℕ) : ℤ)) ∧
    format_mmss (((25 * 60 + 0 : ℕ) : ℚ)) = pad2 ((25 : ℕ) : ℤ) ++ ":" ++ pad2 ((0 : ℕ) : ℤ) :=
  ⟨by norm_num, time_codec_roundtrip.1 (5 / 2) (by norm_num),
   (time_codec_roundtrip.2 25 0 (by norm_num) (by norm_num) (by norm_num)).1,
   (time_codec_roundtrip.2 25 0 (by norm_num) (by norm_num) (by norm_num)).2⟩

/-- C9 counterexample: the claim says the result's sex field is always
"M", "K" or absent; a recovered object carrying a non-string sex value
passes it through unchanged (here the number 7). -/
theorem extract_sex_not_enum :
    extract_runner_profile "hi" "k"
        (LLMBehaviour.returns (Option.some "\x7b\"sex\": 7\x7d")) =
      Except.ok (PyVal.dict
        [("sex", PyVal.int 7), ("age", PyVal.none), ("t5k", PyVal.none),
         ("t5k_s", PyVal.none),
         ("missing", PyVal.list [PyVal.str "age", PyVal.str "t5k"])]) ∧
    PyVal.int 7 ≠ PyVal.none ∧ (∀ s : String, PyVal.int 7 ≠ PyVal.str s) := by
  refine ⟨rfl, by simp, fun s => by simp⟩

/-- C9 (amended): whenever extract returns a result on non-blank text,
it is a dict with exactly the five keys sex, age, t5k, t5k_s, missing in
that order; the sex entry is never a string other than "M" or "K" (a
non-string raw value passes through unchanged); and the missing entry is
a sublist of ["sex", "age", "t5k"] in that order without duplicates. -/
theorem extract_result_shape (text key : String) (b : LLMBehaviour) (d : PyVal)
    (ht : pyStrip text ≠ "") (hok : extract_runner_profile text key b = Except.ok d) :
    ∃ sex age t5k t5ks miss,
      d = PyVal.dict
        [("sex", sex), ("age", age), ("t5k", t5k), ("t5k_s", t5ks),
         ("missing", PyVal.list (List.map PyVal.str miss))] ∧
      (∀ s, sex = PyVal.str s → s = "M" ∨ s = "K") ∧
      List.Sublist miss ["sex", "age", "t5k"] := by
  by_cases hk : key = ""
  · rw [hk, extract_empty_key text b ht] at hok
    cases hok
  cases b with
  | raises msg =>
    rw [extract_raises text key msg ht hk] at hok
    cases hok
  | returns c =>
    rw [extract_returns text key c ht hk] at hok
    revert hok
    generalize safe_json_loads
        (match c with
         | Option.some s => if s == "" then "\x7b\x7d" else s
         | Option.none => "\x7b\x7d") = r
    intro hok
    rcases r with e | v
    · cases hok
    · cases v with
      | dict fs =>
        cases hok
        refine ⟨_, _, _, _, _, rfl, ?_, ?_⟩
        · intro s hs
          exact sexNormalize_str_range _ _ hs
        · exact missing_clean_sublist _ _ _ _
      | none => cases hok
      | bool x => cases hok
      | int x => cases hok
      | float x => cases hok
      | str x => cases hok
      | list x => cases hok

/-- C9 witness: the amended theorem applied to a concrete successful
extraction. -/
theorem extract_result_shape_witness :
    ∃ sex age t5k t5ks miss,
      (PyVal.dict
        [("sex", PyVal.none), ("age", PyVal.none), ("t5k", PyVal.none),
         ("t5k_s", PyVal.none),
         ("missing", PyVal.list [PyVal.str "sex", PyVal.str "age", PyVal.str "t5k"])]) =
        PyVal.dict
          [("sex", sex), ("age", age), ("t5k", t5k), ("t5k_s", t5ks),
           ("missing", PyVal.list (List.map PyVal.str miss))] ∧
      (∀ s, sex = PyVal.str s → s = "M" ∨ s = "K") ∧
      List.Sublist miss ["sex", "age", "t5k"] :=
  extract_result_shape "hi" "k" (LLMBehaviour.returns (Option.some "\x7b\x7d")) _
    (by decide) rfl

/-- C10: JSON recovery does not require a JSON object: a full text that
parses as a bare number or array is returned as-is rather than raising. -/
theorem recovery_accepts_nonobject :
    safe_json_loads "42" = Except.ok (PyVal.int 42) ∧
    safe_json_loads "[1, 2]" = Except.ok (PyVal.list [PyVal.int 1, PyVal.int 2]) :=
  ⟨rfl, rfl⟩

end HalfMarathon
